import Mathlib

/-!
Shallow embedding of `src/app.py`, a Flask service that downloads media with
yt-dlp, re-encodes audio with ffmpeg, caches files in a downloads directory
and serves them over HTTP with byte-range support.

Modeling conventions:
* Python strings are `List Char`; file bytes are `List Nat`.
* The downloads directory is an association list from filenames to `FileData`
  (`os.path.join(DOWNLOAD_DIR, name)` is modeled by the name alone, since the
  directory is a process-wide constant).
* External subprocesses (ffmpeg in `ensure_audio_compatibility` and
  `simple_audio_fix`, yt-dlp in `download_media`) are modeled by explicit
  outcome parameters: the subprocess either succeeds and determines the file
  it produced, fails (non-zero exit / missing output), or raises.
* Runtime exceptions at the points where the source catches them are modeled
  by `Option (List Char)` parameters carrying the exception text `str(e)`.
* `int(...)` is modeled for the strings reachable inside
  `parse_range_header`: optional surrounding ASCII whitespace, an optional
  leading plus sign, then decimal digits (a minus sign can never reach
  `int` there because the argument is a piece of a `split('-')`).
-/

/-- `'0' <= c <= '9'`, the characters accepted by the modeled `int`. -/
def isDig (c : Char) : Bool := 48 ≤ c.toNat && c.toNat ≤ 57

/-- ASCII whitespace stripped by Python's `str.strip` / accepted by `int`. -/
def isPySpace (c : Char) : Bool :=
  c.toNat = 32 || c.toNat = 9 || c.toNat = 10 || c.toNat = 13 || c.toNat = 11 || c.toNat = 12

/-- Python `str.strip()` (ASCII whitespace). -/
def pyStrip (l : List Char) : List Char :=
  ((l.dropWhile isPySpace).reverse.dropWhile isPySpace).reverse

/-- Decimal digit rendering helper, with fuel for structural recursion. -/
def natStrAux : Nat → Nat → List Char
  | 0, _ => []
  | fuel + 1, n =>
    if n < 10 then [Char.ofNat (48 + n)]
    else natStrAux fuel (n / 10) ++ [Char.ofNat (48 + n % 10)]

/-- Decimal rendering of a natural number (Python `str` on a nonnegative int). -/
def natStr (n : Nat) : List Char := natStrAux (n + 1) n

/-- Decimal rendering of an integer (Python `str`/f-string interpolation). -/
def intStr (n : Int) : List Char :=
  if n < 0 then '-' :: natStr n.natAbs else natStr n.toNat

/-- Value of a decimal digit string, most significant digit first. -/
def digitsValAux (acc : Nat) : List Char → Nat
  | [] => acc
  | c :: cs => digitsValAux (10 * acc + (c.toNat - 48)) cs

def digitsVal (l : List Char) : Nat := digitsValAux 0 l

/-- Python `int(s)` on the strings reachable inside `parse_range_header`:
strip whitespace, allow one leading `'+'`, then nonempty digits. -/
def pyInt (l0 : List Char) : Option Nat :=
  let l := pyStrip l0
  let core := if l.headD ' ' = '+' then l.tail else l
  if core ≠ [] ∧ core.all isDig then some (digitsVal core) else none

/-- Python `s.split(sep)` for a one-character separator. -/
def splitOnChar (sep : Char) : List Char → List (List Char)
  | [] => [[]]
  | c :: cs =>
    if c = sep then [] :: splitOnChar sep cs
    else
      match splitOnChar sep cs with
      | p :: ps => (c :: p) :: ps
      | [] => [[c]]

/-- Match `pat` against the front of `l`; on success return the rest of `l`. -/
def matchPre : List Char → List Char → Option (List Char)
  | [], l => some l
  | _ :: _, [] => none
  | p :: ps, c :: cs => if p = c then matchPre ps cs else none

/-- Whether comparing `pat` against the front of `l` hits a mismatch strictly
inside `l` (so the comparison fails regardless of what is appended to `l`). -/
def mismatchInside : List Char → List Char → Bool
  | [], _ => false
  | _ :: _, [] => false
  | p :: ps, c :: cs => if p = c then mismatchInside ps cs else true

/-- Every (nonempty-position) attempt to match `lit` inside `conc` fails
within `conc` itself, independently of any continuation. -/
def noEarlyMatchB (lit : List Char) : List Char → Bool
  | [] => true
  | c :: cs => mismatchInside lit (c :: cs) && noEarlyMatchB lit cs

/-- Python `re.search` for the patterns of `get_video_id`, which all have the
shape `literal([^X]+)`: find the leftmost position where the literal matches
and is followed by at least one character other than `excl`; return the
(greedy) capture group. -/
def reSearchCapture (lit : List Char) (excl : Char) : List Char → Option (List Char)
  | [] => none
  | c :: cs =>
    match matchPre lit (c :: cs) with
    | some rest =>
      let cap := rest.takeWhile (fun d => d != excl)
      if cap = [] then reSearchCapture lit excl cs else some cap
    | none => reSearchCapture lit excl cs

/-- Python `sub in s` (substring containment). -/
def containsSub (pat : List Char) : List Char → Bool
  | [] => pat.isEmpty
  | c :: cs => (matchPre pat (c :: cs)).isSome || containsSub pat cs

/-- The suffix of `l` after the last occurrence of `"v="` (as chosen by
Python's non-overlapping left-to-right `split`), `none` when `"v="` does not
occur: models `l.split('v=')[-1]` when it is `some`. -/
def afterLastVEq : List Char → Option (List Char)
  | [] => none
  | [_] => none
  | c :: d :: rest =>
    if c = 'v' ∧ d = '=' then some ((afterLastVEq rest).getD rest)
    else afterLastVEq (d :: rest)

/-- Python `s.endswith(suf)`. -/
def pyEndsWith (l suf : List Char) : Bool := l.drop (l.length - suf.length) == suf

/-- Literal of pattern `r'youtube\.com/watch\?v=([^&]+)'`. -/
def pat1 : List Char := "youtube.com/watch?v=".toList
/-- Literal of pattern `r'youtu\.be/([^?]+)'`. -/
def pat2 : List Char := "youtu.be/".toList
/-- Literal of pattern `r'youtube\.com/embed/([^?]+)'`. -/
def pat3 : List Char := "youtube.com/embed/".toList
/-- Literal of pattern `r'youtube\.com/shorts/([^?]+)'`. -/
def pat4 : List Char := "youtube.com/shorts/".toList
/-- Literal of pattern `r'youtube\.com/v/([^?]+)'`. -/
def pat5 : List Char := "youtube.com/v/".toList

def veqL : List Char := "v=".toList
def mp3L : List Char := ".mp3".toList
def mp4L : List Char := ".mp4".toList
def ddL : List Char := "..".toList

/-- `get_video_id` (src/app.py lines 26-52): extract a video id from a URL. -/
def get_video_id (url0 : List Char) : List Char :=
  let url := pyStrip url0
  if url.length = 11 ∧ ' ' ∉ url ∧ '/' ∉ url ∧ '=' ∉ url then url
  else
    match reSearchCapture pat1 '&' url with
    | some g => g
    | none =>
    match reSearchCapture pat2 '?' url with
    | some g => g
    | none =>
    match reSearchCapture pat3 '?' url with
    | some g => g
    | none =>
    match reSearchCapture pat4 '?' url with
    | some g => g
    | none =>
    match reSearchCapture pat5 '?' url with
    | some g => g
    | none =>
      if containsSub veqL url then ((afterLastVEq url).getD url).takeWhile (fun c => c != '&')
      else url

/-- Contents and modification time of one file in the downloads directory. -/
structure FileData where
  bytes : List Nat
  mtime : Nat
deriving DecidableEq

/-- The downloads directory: filenames with their data, in listing order. -/
abbrev FS := List (List Char × FileData)

def fsLookup (fs : FS) (name : List Char) : Option FileData :=
  match fs with
  | [] => none
  | (n, fd) :: rest => if n = name then some fd else fsLookup rest name

def fsUpdate : FS → List Char → FileData → FS
  | [], n, fd => [(n, fd)]
  | (m, old) :: rest, n, fd =>
    if m = n then (n, fd) :: rest else (m, old) :: fsUpdate rest n fd

def fsRemove : FS → List Char → FS
  | [], _ => []
  | (m, old) :: rest, n => if m = n then rest else (m, old) :: fsRemove rest n

/-- `shutil.move` of an existing file onto a (possibly fresh) name. -/
def fsRename (fs : FS) (old new_ : List Char) : FS :=
  match fsLookup fs old with
  | some fd => fsUpdate (fsRemove fs old) new_ fd
  | none => fs

/-- Bytes currently stored under `name` (empty if absent). -/
def currentBytes (fs : FS) (name : List Char) : List Nat :=
  ((fsLookup fs name).map FileData.bytes).getD []

/-- Outcome of one ffmpeg subprocess invocation: it produced an output file
with the given data, it failed (non-zero exit or missing output file), or the
call raised (e.g. `subprocess.TimeoutExpired`). -/
inductive FfmpegOutcome
  | success (out : FileData)
  | failure
  | crash
deriving DecidableEq

/-- `simple_audio_fix` (lines 101-123): try a second ffmpeg conversion; on
success replace the file, on failure or exception leave it alone. -/
def simple_audio_fix (o2 : FfmpegOutcome) (fs : FS) (filepath : List Char) : Bool × FS :=
  match o2 with
  | .success out => (true, fsUpdate fs filepath out)
  | .failure => (false, fs)
  | .crash => (false, fs)

/-- `ensure_audio_compatibility` (lines 54-99): if the file exists and has at
least 10000 bytes, re-encode it with ffmpeg and move the result over the
original path; fall back to `simple_audio_fix`, swallow exceptions. -/
def ensure_audio_compatibility (o1 o2 : FfmpegOutcome) (fs : FS) (filepath : List Char) :
    Bool × FS :=
  match fsLookup fs filepath with
  | none => (false, fs)
  | some fd =>
    if fd.bytes.length < 10000 then (false, fs)
    else
      match o1 with
      | .success out => (true, fsUpdate fs filepath out)
      | .failure => simple_audio_fix o2 fs filepath
      | .crash => (false, fs)

/-- Outcome of the yt-dlp subprocess in `download_media`: raised (timeout or
other exception, caught at line 209) or finished with an exit code, captured
stderr and the files it wrote into the downloads directory. -/
inductive YtdlpOutcome
  | crash (msg : List Char)
  | finished (returncode : Int) (stderrS : List Char) (writes : FS)

def applyWrites (fs : FS) (writes : FS) : FS :=
  writes.foldl (fun a pr => fsUpdate a pr.1 pr.2) fs

/-- First directory entry whose name starts with `video_id` (the
`for filename in os.listdir` scan at lines 195-205). -/
def findPrefixFile (video_id : List Char) : FS → Option (List Char)
  | [] => none
  | (n, _) :: rest => if (matchPre video_id n).isSome then some n else findPrefixFile video_id rest

/-- The fresh-download part of `download_media` (lines 145-210). -/
def download_media_fresh (y : YtdlpOutcome) (o1 o2 : FfmpegOutcome) (fs : FS)
    (video_id output_file : List Char) (isAudio : Bool) : (Bool × List Char) × FS :=
  match y with
  | .crash msg => ((false, msg), fs)
  | .finished rc stderrS writes =>
    let fs1 := applyWrites fs writes
    if rc = 0 then
      match fsLookup fs1 output_file with
      | some _ =>
        let fs2 := if isAudio then (ensure_audio_compatibility o1 o2 fs1 output_file).2 else fs1
        ((true, output_file), fs2)
      | none =>
        match findPrefixFile video_id fs1 with
        | some found =>
          let fs2 := if found ≠ output_file then fsRename fs1 found output_file else fs1
          let fs3 := if isAudio then (ensure_audio_compatibility o1 o2 fs2 output_file).2 else fs2
          ((true, output_file), fs3)
        | none =>
          ((false, if stderrS ≠ [] then stderrS.take 500 else "Download failed".toList), fs1)
    else ((false, if stderrS ≠ [] then stderrS.take 500 else "Download failed".toList), fs1)

/-- `download_media` (lines 125-210): serve from cache when the file exists
with more than 50000 bytes (running `ensure_audio_compatibility` on audio
cache hits), otherwise delete the corrupt file and download afresh. -/
def download_media (y : YtdlpOutcome) (o1 o2 : FfmpegOutcome) (fs : FS)
    (video_id : List Char) (isAudio : Bool) : (Bool × List Char) × FS :=
  let output_file := video_id ++ (if isAudio then mp3L else mp4L)
  match fsLookup fs output_file with
  | some fd =>
    if fd.bytes.length > 50000 then
      let fs' := if isAudio then (ensure_audio_compatibility o1 o2 fs output_file).2 else fs
      ((true, output_file), fs')
    else download_media_fresh y o1 o2 (fsRemove fs output_file) video_id output_file isAudio
  | none => download_media_fresh y o1 o2 fs video_id output_file isAudio

/-- Body of an HTTP response: raw file bytes, a plain-text body, or the
`jsonify` error shape used throughout the source. -/
inductive RespBody
  | bytes (data : List Nat)
  | text (s : List Char)
  | jsonError (msg : List Char)
deriving DecidableEq

/-- An HTTP response with the headers the source sets explicitly. Header
values are kept as the rendered strings the source writes into them. -/
structure Resp where
  status : Nat
  body : RespBody
  contentType : Option (List Char)
  contentRange : Option (List Char)
  contentLength : Option (List Char)
  acceptRanges : Bool
deriving DecidableEq

def bodyLen : RespBody → Nat
  | .bytes data => data.length
  | .text s => s.length
  | .jsonError msg => msg.length

/-- `jsonify(\x7b'error': msg\x7d), status`. -/
def jsonResp (status : Nat) (msg : List Char) : Resp :=
  { status := status, body := RespBody.jsonError msg, contentType := none,
    contentRange := none, contentLength := none, acceptRanges := false }

/-- `parse_range_header` (lines 347-364). Any exception inside the `try`
(unpacking a split of the wrong arity, `int` on a malformed part) lands in
the `except` returning `(0, file_size)`. The second component is the
exclusive range end, as in the source. -/
def parse_range_header (range_header : List Char) (file_size : Nat) : Nat × Nat :=
  match splitOnChar '=' range_header with
  | [range_type, range_spec0] =>
    if pyStrip range_type ≠ "bytes".toList then (0, file_size)
    else
      let range_parts := splitOnChar '-' (pyStrip range_spec0)
      let p0 := range_parts.headD []
      let start? : Option Nat := if p0 = [] then some 0 else pyInt p0
      match start? with
      | none => (0, file_size)
      | some range_start =>
        if range_parts.length > 1 ∧ range_parts.getD 1 [] ≠ [] then
          match pyInt (range_parts.getD 1 []) with
          | none => (0, file_size)
          | some e => (range_start, min (e + 1) file_size)
        else (range_start, file_size)
  | _ => (0, file_size)

/-- Python `file.read(n)` after a seek: a negative count reads to the end. -/
def pyRead (remaining : List Nat) (n : Int) : List Nat :=
  if n < 0 then remaining else remaining.take n.toNat

/-- `send_range_request` (lines 315-345). `fileBytes` is the current content
of the file on disk, `file_size` the size the caller measured; `readExc`
injects an exception raised while opening/reading the file (caught at line
343 and returned verbatim as a 500). -/
def send_range_request (fileBytes : List Nat) (content_type : List Char)
    (range_header : List Char) (file_size : Nat) (readExc : Option (List Char)) : Resp :=
  match parse_range_header range_header file_size with
  | (range_start, range_end) =>
    if range_start ≥ file_size ∨ range_end > file_size then
      { status := 416, body := RespBody.text "Range Not Satisfiable".toList,
        contentType := none, contentRange := none, contentLength := none, acceptRanges := false }
    else
      match readExc with
      | some msg =>
        { status := 500, body := RespBody.text msg, contentType := none,
          contentRange := none, contentLength := none, acceptRanges := false }
      | none =>
        let length : Int := (range_end : Int) - (range_start : Int)
        let data := pyRead (fileBytes.drop range_start) length
        { status := 206, body := RespBody.bytes data, contentType := some content_type,
          contentRange := some ("bytes ".toList ++ natStr range_start ++
            '-' :: intStr ((range_end : Int) - 1) ++ '/' :: natStr file_size),
          contentLength := some (intStr length), acceptRanges := true }

/-- The `send_file` branch of `stream_file` (lines 292-309): full body with
`Accept-Ranges` and a `Content-Length` taken from the size measured before
`ensure_audio_compatibility` ran. (Werkzeug's own conditional range handling
inside `send_file` is external to this code and is not modeled.) -/
def fullSend (fs : FS) (filename : List Char) (file_size : Nat) (content_type : List Char) :
    Resp :=
  { status := 200, body := RespBody.bytes (currentBytes fs filename),
    contentType := some (if pyEndsWith filename mp3L then "audio/mpeg".toList else content_type),
    contentRange := none, contentLength := some (natStr file_size), acceptRanges := true }

/-- `stream_file` (lines 251-313) without its outermost exception handler:
filename guard, existence and minimum-size checks, content type, the
in-place `ensure_audio_compatibility` re-encode for `.mp3`, then either the
byte-range path (only for `.mp3`) or a full `send_file`. Returns the
response together with the state of the downloads directory afterwards. -/
def stream_file (o1 o2 : FfmpegOutcome) (readExc : Option (List Char)) (fs : FS)
    (filename : List Char) (rangeHeader : Option (List Char)) : Resp × FS :=
  if containsSub ddL filename = true ∨ '/' ∈ filename then
    (jsonResp 400 "Invalid filename".toList, fs)
  else
    match fsLookup fs filename with
    | none => (jsonResp 404 "File not found".toList, fs)
    | some fd =>
      if fd.bytes.length < 10000 then (jsonResp 500 "File too small or corrupted".toList, fs)
      else
        let file_size := fd.bytes.length
        let content_type :=
          if pyEndsWith filename mp3L then "audio/mpeg".toList
          else if pyEndsWith filename mp4L then "video/mp4".toList
          else "application/octet-stream".toList
        let fs' :=
          if pyEndsWith filename mp3L then (ensure_audio_compatibility o1 o2 fs filename).2
          else fs
        match rangeHeader with
        | some hdr =>
          if pyEndsWith filename mp3L then
            (send_range_request (currentBytes fs' filename) content_type hdr file_size readExc, fs')
          else (fullSend fs' filename file_size content_type, fs')
        | none => (fullSend fs' filename file_size content_type, fs')

/-- The `try/except` boundary of `stream_file` (lines 253, 311-313): an
unexpected exception with text `msg` is answered by
`jsonify(\x7b'error': str(e)\x7d), 500`. -/
def stream_file_boundary (exc : Option (List Char)) (o1 o2 : FfmpegOutcome)
    (readExc : Option (List Char)) (fs : FS) (filename : List Char)
    (rangeHeader : Option (List Char)) : Resp × FS :=
  match exc with
  | some msg => (jsonResp 500 msg, fs)
  | none => stream_file o1 o2 readExc fs filename rangeHeader

/-- One entry seen by the cleanup sweep: directory name, whether
`os.path.isfile` holds, its mtime, and whether `os.remove` would raise. -/
structure SweepEntry where
  name : List Char
  isfile : Bool
  mtime : Nat
  removeFails : Bool
deriving DecidableEq

/-- One pass of the `for filename in os.listdir(...)` loop inside `cleanup`
(lines 489-496): deletes files older than 86400 seconds in listing order.
Returns the deleted names and whether an exception escaped the loop (a
failing `os.remove` propagates out of the `for`, ending the pass). -/
def cleanup_pass (now : Nat) : List SweepEntry → List (List Char) × Bool
  | [] => ([], false)
  | e :: rest =>
    if e.isfile = true ∧ now - e.mtime > 86400 then
      if e.removeFails then ([], true)
      else
        match cleanup_pass now rest with
        | (deleted, aborted) => (e.name :: deleted, aborted)
    else cleanup_pass now rest

/-- One iteration of the `while True` cleanup thread body (lines 487-500):
run a pass; an exception is caught by the `except` which logs and sleeps 300
seconds, otherwise the thread sleeps 3600 seconds. The caller never fails. -/
def cleanup_thread_iter (now : Nat) (entries : List SweepEntry) :
    (List (List Char) × Bool) × Nat :=
  match cleanup_pass now entries with
  | (deleted, aborted) => ((deleted, aborted), if aborted then 300 else 3600)

/-- Rendering of an optional decimal number, empty when absent: used to build
every header of the form `bytes=START-END` with optional START and END. -/
def renderNatOpt (o : Option Nat) : List Char := (o.map natStr).getD []

/-- The Range header `bytes=START-END` where either side may be missing. -/
def mkRangeHdr (so eo : Option Nat) : List Char :=
  "bytes=".toList ++ renderNatOpt so ++ '-' :: renderNatOpt eo

/-- A multi-range header `bytes=A-B,rest`, e.g. `bytes=0-10,20-30`. -/
def mkMultiRangeHdr (a b : Nat) (rest : List Char) : List Char :=
  "bytes=".toList ++ natStr a ++ '-' :: (natStr b ++ ',' :: rest)

/-- A well-formed video identifier: nonempty, with none of the characters
that the URL shapes of `get_video_id` treat specially (whitespace, `/`, `=`,
`&`, `?`). -/
def idOK (id : List Char) : Prop :=
  id ≠ [] ∧ ∀ c ∈ id, isPySpace c = false ∧ c ≠ '/' ∧ c ≠ '=' ∧ c ≠ '&' ∧ c ≠ '?'

instance (id : List Char) : Decidable (idOK id) := by
  unfold idOK
  infer_instance

/-! ### Basic lemmas about characters, digit strings and `pyInt` -/

theorem dropWhile_eq_self_of_all (p : Char → Bool) (l : List Char)
    (h : ∀ c ∈ l, p c = false) : l.dropWhile p = l := by
  cases l with
  | nil => rfl
  | cons a t =>
    rw [List.dropWhile_cons]
    simp [h a (by simp)]

theorem pyStrip_eq_self_of_all (l : List Char) (h : ∀ c ∈ l, isPySpace c = false) :
    pyStrip l = l := by
  unfold pyStrip
  rw [dropWhile_eq_self_of_all _ _ h]
  rw [dropWhile_eq_self_of_all _ _ (by intro c hc; exact h c (List.mem_reverse.1 hc))]
  exact List.reverse_reverse l

theorem digitChar_toNat (n : Nat) (h : n < 10) : (Char.ofNat (48 + n)).toNat = 48 + n := by
  interval_cases n <;> decide

theorem digitChar_isDig (n : Nat) (h : n < 10) : isDig (Char.ofNat (48 + n)) = true := by
  interval_cases n <;> decide

theorem natStrAux_all_dig : ∀ fuel n, n < fuel → ∀ c ∈ natStrAux fuel n, isDig c = true := by
  intro fuel
  induction fuel with
  | zero => intro n h; omega
  | succ f ih =>
    intro n h c hc
    rw [natStrAux] at hc
    by_cases h10 : n < 10
    · simp only [if_pos h10, List.mem_singleton] at hc
      subst hc; exact digitChar_isDig n h10
    · simp only [if_neg h10, List.mem_append, List.mem_singleton] at hc
      rcases hc with hc | hc
      · have hdiv : n / 10 < f := by
          have := Nat.div_lt_self (show 0 < n by omega) (show (1 : Nat) < 10 by omega)
          omega
        exact ih (n / 10) hdiv c hc
      · subst hc; exact digitChar_isDig (n % 10) (Nat.mod_lt _ (by omega))

theorem natStrAux_ne_nil : ∀ fuel n, n < fuel → natStrAux fuel n ≠ [] := by
  intro fuel n h
  cases fuel with
  | zero => omega
  | succ f =>
    rw [natStrAux]
    by_cases h10 : n < 10
    · rw [if_pos h10]; simp
    · rw [if_neg h10]; simp

theorem digitsValAux_append (a b : List Char) :
    ∀ acc, digitsValAux acc (a ++ b) = digitsValAux (digitsValAux acc a) b := by
  induction a with
  | nil => intro acc; rfl
  | cons c cs ih =>
    intro acc
    rw [List.cons_append]
    rw [show digitsValAux acc (c :: (cs ++ b)) =
      digitsValAux (10 * acc + (c.toNat - 48)) (cs ++ b) from rfl]
    rw [ih]
    rfl

theorem digitsValAux_singleton (acc : Nat) (c : Char) :
    digitsValAux acc [c] = 10 * acc + (c.toNat - 48) := rfl

theorem digitsValAux_natStrAux :
    ∀ fuel n, n < fuel →
      ∀ acc, digitsValAux acc (natStrAux fuel n) = acc * 10 ^ (natStrAux fuel n).length + n := by
  intro fuel
  induction fuel with
  | zero => intro n h; omega
  | succ f ih =>
    intro n h acc
    rw [natStrAux]
    by_cases h10 : n < 10
    · rw [if_pos h10]
      rw [digitsValAux_singleton, digitChar_toNat n h10]
      rw [List.length_singleton, pow_one]
      omega
    · rw [if_neg h10]
      have hdiv : n / 10 < f := by
        have := Nat.div_lt_self (by omega : 0 < n) (by omega : 1 < 10)
        omega
      rw [digitsValAux_append]
      rw [ih (n / 10) hdiv acc]
      rw [digitsValAux_singleton, digitChar_toNat (n % 10) (Nat.mod_lt _ (by omega))]
      rw [List.length_append, List.length_singleton]
      rw [pow_succ, ← mul_assoc]
      have := Nat.div_add_mod n 10
      omega

theorem natStr_all_dig (n : Nat) : ∀ c ∈ natStr n, isDig c = true :=
  natStrAux_all_dig (n + 1) n (by omega)

theorem natStr_ne_nil (n : Nat) : natStr n ≠ [] :=
  natStrAux_ne_nil (n + 1) n (by omega)

theorem digitsVal_natStr (n : Nat) : digitsVal (natStr n) = n := by
  unfold digitsVal natStr
  rw [digitsValAux_natStrAux (n + 1) n (by omega) 0]
  simp

theorem isDig_not_space (c : Char) (h : isDig c = true) : isPySpace c = false := by
  unfold isDig at h
  unfold isPySpace
  simp only [Bool.and_eq_true, decide_eq_true_eq] at h
  simp only [Bool.or_eq_false_iff, decide_eq_false_iff_not]
  omega

theorem isDig_ne_of_lt (c d : Char) (hd : isDig d = true)
    (hc : c.toNat < 48 ∨ 57 < c.toNat) : d ≠ c := by
  intro he
  subst he
  unfold isDig at hd
  simp only [Bool.and_eq_true, decide_eq_true_eq] at hd
  omega

theorem pyStrip_natStr (n : Nat) : pyStrip (natStr n) = natStr n :=
  pyStrip_eq_self_of_all _ (fun c hc => isDig_not_space c (natStr_all_dig n c hc))

theorem pyInt_of_digits (l : List Char) (hne : l ≠ []) (hdig : ∀ c ∈ l, isDig c = true) :
    pyInt l = some (digitsVal l) := by
  unfold pyInt
  simp only [pyStrip_eq_self_of_all l (fun c hc => isDig_not_space c (hdig c hc))]
  obtain ⟨c, cs, rfl⟩ := List.exists_cons_of_ne_nil hne
  have hc : isDig c = true := hdig c (by simp)
  have hcp : ¬ (c :: cs).headD ' ' = '+' := by
    simp only [List.headD_cons]
    intro he; subst he; exact absurd hc (by decide)
  rw [if_neg hcp]
  rw [if_pos ⟨by simp, by rw [List.all_eq_true]; exact hdig⟩]

theorem pyInt_natStr (n : Nat) : pyInt (natStr n) = some n := by
  rw [pyInt_of_digits (natStr n) (natStr_ne_nil n) (natStr_all_dig n)]
  rw [digitsVal_natStr]

/-! ### Lemmas about `splitOnChar` and parsing constructed Range headers -/

theorem splitOnChar_ne_nil (sep : Char) (l : List Char) : splitOnChar sep l ≠ [] := by
  cases l with
  | nil => simp [splitOnChar]
  | cons c cs =>
    rw [splitOnChar]
    by_cases h : c = sep
    · simp [h]
    · rw [if_neg h]
      cases hs : splitOnChar sep cs with
      | nil => simp
      | cons p ps => simp

theorem splitOnChar_no_sep (sep : Char) (l : List Char) (h : sep ∉ l) :
    splitOnChar sep l = [l] := by
  induction l with
  | nil => rfl
  | cons c cs ih =>
    rw [splitOnChar]
    have hc : ¬ c = sep := by intro he; exact h (by rw [he]; simp)
    rw [if_neg hc]
    rw [ih (fun hm => h (by simp [hm]))]

theorem splitOnChar_append (sep : Char) (a b : List Char) (h : sep ∉ a) :
    splitOnChar sep (a ++ sep :: b) = a :: splitOnChar sep b := by
  induction a with
  | nil =>
    simp only [List.nil_append]
    rw [splitOnChar, if_pos rfl]
  | cons c cs ih =>
    rw [List.cons_append, splitOnChar]
    have hc : ¬ c = sep := by intro he; exact h (by rw [he]; simp)
    rw [if_neg hc]
    rw [ih (fun hm => h (by simp [hm]))]

theorem renderNatOpt_dig (o : Option Nat) : ∀ c ∈ renderNatOpt o, isDig c = true := by
  cases o with
  | none => intro c hc; simp [renderNatOpt] at hc
  | some n => exact natStr_all_dig n

theorem parse_mkRangeHdr (so eo : Option Nat) (fsz : Nat) :
    parse_range_header (mkRangeHdr so eo) fsz =
      (so.getD 0, min ((eo.map (fun e => e + 1)).getD fsz) fsz) := by
  have hrest : mkRangeHdr so eo =
      "bytes".toList ++ '=' :: (renderNatOpt so ++ '-' :: renderNatOpt eo) := rfl
  have hdig : ∀ c ∈ renderNatOpt so ++ '-' :: renderNatOpt eo,
      isDig c = true ∨ c = '-' := by
    intro c hc
    rcases List.mem_append.1 hc with hc | hc
    · exact Or.inl (renderNatOpt_dig so c hc)
    · rcases List.mem_cons.1 hc with hc | hc
      · exact Or.inr hc
      · exact Or.inl (renderNatOpt_dig eo c hc)
  have hne : '=' ∉ renderNatOpt so ++ '-' :: renderNatOpt eo := by
    intro hm
    rcases hdig '=' hm with hd | hd
    · exact absurd hd (by decide)
    · exact absurd hd (by decide)
  have hsplit : splitOnChar '=' (mkRangeHdr so eo) =
      ["bytes".toList, renderNatOpt so ++ '-' :: renderNatOpt eo] := by
    rw [hrest, splitOnChar_append '=' _ _ (by decide)]
    rw [splitOnChar_no_sep '=' _ hne]
  have hstrip : pyStrip (renderNatOpt so ++ '-' :: renderNatOpt eo) =
      renderNatOpt so ++ '-' :: renderNatOpt eo := by
    apply pyStrip_eq_self_of_all
    intro c hc
    rcases hdig c hc with hd | hd
    · exact isDig_not_space c hd
    · rw [hd]; decide
  have hsplit2 : splitOnChar '-' (renderNatOpt so ++ '-' :: renderNatOpt eo) =
      [renderNatOpt so, renderNatOpt eo] := by
    rw [splitOnChar_append '-' _ _ (fun hm =>
      absurd (renderNatOpt_dig so '-' hm) (by decide))]
    rw [splitOnChar_no_sep '-' _ (fun hm =>
      absurd (renderNatOpt_dig eo '-' hm) (by decide))]
  unfold parse_range_header
  rw [hsplit]
  simp only [hstrip, hsplit2]
  rw [if_neg (by decide)]
  have hrn : renderNatOpt none = [] := rfl
  have hrs : ∀ n, renderNatOpt (some n) = natStr n := fun _ => rfl
  cases so with
  | none =>
    simp only [hrn, List.headD_cons]
    rw [if_pos trivial]
    cases eo with
    | none =>
      simp only [hrn]
      rw [if_neg (by simp)]
      simp
    | some b =>
      simp only [hrs, List.getD_cons_succ, List.getD_cons_zero]
      rw [if_pos ⟨by simp, natStr_ne_nil b⟩]
      rw [pyInt_natStr b]
      simp
  | some a =>
    simp only [hrs, List.headD_cons]
    rw [if_neg (natStr_ne_nil a)]
    rw [pyInt_natStr a]
    cases eo with
    | none =>
      simp only [hrn]
      rw [if_neg (by simp)]
      simp
    | some b =>
      simp only [hrs, List.getD_cons_succ, List.getD_cons_zero]
      rw [if_pos ⟨by simp, natStr_ne_nil b⟩]
      rw [pyInt_natStr b]
      simp

/-! ### Lemmas about the filesystem model and `stream_file` unfolding -/

theorem fsLookup_update_self (fs : FS) (n : List Char) (fd : FileData) :
    fsLookup (fsUpdate fs n fd) n = some fd := by
  induction fs with
  | nil => simp [fsUpdate, fsLookup]
  | cons p rest ih =>
    obtain ⟨m, old⟩ := p
    rw [fsUpdate]
    by_cases h : m = n
    · rw [if_pos h]
      rw [fsLookup, if_pos rfl]
    · rw [if_neg h]
      rw [fsLookup, if_neg h]
      exact ih

theorem currentBytes_of_lookup (fs : FS) (n : List Char) (fd : FileData)
    (h : fsLookup fs n = some fd) : currentBytes fs n = fd.bytes := by
  unfold currentBytes
  rw [h]
  rfl

theorem pyEndsWith_append (a suf : List Char) : pyEndsWith (a ++ suf) suf = true := by
  unfold pyEndsWith
  have hlen : (a ++ suf).length - suf.length = a.length := by
    rw [List.length_append]; omega
  rw [hlen, List.drop_left]
  exact beq_self_eq_true suf

theorem ensure_crash (o2 : FfmpegOutcome) (fs : FS) (p : List Char) (fd : FileData)
    (hl : fsLookup fs p = some fd) (hsz : ¬ fd.bytes.length < 10000) :
    ensure_audio_compatibility FfmpegOutcome.crash o2 fs p = (false, fs) := by
  unfold ensure_audio_compatibility
  rw [hl]
  simp only [if_neg hsz]

theorem ensure_success (out : FileData) (o2 : FfmpegOutcome) (fs : FS) (p : List Char)
    (fd : FileData) (hl : fsLookup fs p = some fd) (hsz : ¬ fd.bytes.length < 10000) :
    ensure_audio_compatibility (FfmpegOutcome.success out) o2 fs p =
      (true, fsUpdate fs p out) := by
  unfold ensure_audio_compatibility
  rw [hl]
  simp only [if_neg hsz]

theorem stream_file_mp3_range (o1 o2 : FfmpegOutcome) (re : Option (List Char)) (fs : FS)
    (base : List Char) (fd : FileData) (hdr : List Char)
    (hsafe : ¬ (containsSub ddL (base ++ mp3L) = true ∨ '/' ∈ base ++ mp3L))
    (hl : fsLookup fs (base ++ mp3L) = some fd)
    (hsz : ¬ fd.bytes.length < 10000)
    (ho1 : o1 = FfmpegOutcome.crash) :
    stream_file o1 o2 re fs (base ++ mp3L) (some hdr) =
      (send_range_request fd.bytes "audio/mpeg".toList hdr fd.bytes.length re, fs) := by
  subst ho1
  unfold stream_file
  rw [if_neg hsafe]
  simp only [hl]
  rw [if_neg hsz]
  simp only [pyEndsWith_append base mp3L, if_true]
  simp only [ensure_crash o2 fs (base ++ mp3L) fd hl hsz]
  rw [currentBytes_of_lookup fs (base ++ mp3L) fd hl]

/-! ### Branch lemmas for `send_range_request` -/

theorem send_range_416 (bytes : List Nat) (ct hdr : List Char) (fsz : Nat)
    (re : Option (List Char)) (s e : Nat) (hp : parse_range_header hdr fsz = (s, e))
    (h : s ≥ fsz ∨ e > fsz) :
    send_range_request bytes ct hdr fsz re =
      { status := 416, body := RespBody.text "Range Not Satisfiable".toList,
        contentType := none, contentRange := none, contentLength := none,
        acceptRanges := false } := by
  unfold send_range_request
  rw [hp]
  simp only [if_pos h]

theorem send_range_exc (bytes : List Nat) (ct hdr : List Char) (fsz : Nat)
    (msg : List Char) (s e : Nat) (hp : parse_range_header hdr fsz = (s, e))
    (h : ¬ (s ≥ fsz ∨ e > fsz)) :
    send_range_request bytes ct hdr fsz (some msg) =
      { status := 500, body := RespBody.text msg, contentType := none,
        contentRange := none, contentLength := none, acceptRanges := false } := by
  unfold send_range_request
  rw [hp]
  simp only [if_neg h]

theorem send_range_206 (bytes : List Nat) (ct hdr : List Char) (fsz : Nat)
    (s e : Nat) (hp : parse_range_header hdr fsz = (s, e))
    (h : ¬ (s ≥ fsz ∨ e > fsz)) :
    send_range_request bytes ct hdr fsz none =
      { status := 206,
        body := RespBody.bytes (pyRead (bytes.drop s) ((e : Int) - (s : Int))),
        contentType := some ct,
        contentRange := some ("bytes ".toList ++ natStr s ++
          '-' :: intStr ((e : Int) - 1) ++ '/' :: natStr fsz),
        contentLength := some (intStr ((e : Int) - (s : Int))),
        acceptRanges := true } := by
  unfold send_range_request
  rw [hp]
  simp only [if_neg h]

/-! ### Claim C5 -/

/-- C5: for every file and every Range header of the form `bytes=START-END`
(END optional) whose parsed start `START` is at least `file_size`,
`send_range_request` responds with status 416 (Range Not Satisfiable). -/
theorem range_start_beyond_size_416 (bytes : List Nat) (ct : List Char) (s : Nat)
    (eo : Option Nat) (fsz : Nat) (re : Option (List Char)) (h : s ≥ fsz) :
    (send_range_request bytes ct (mkRangeHdr (some s) eo) fsz re).status = 416 := by
  have hp := parse_mkRangeHdr (some s) eo fsz
  simp only [Option.getD_some] at hp
  rw [send_range_416 bytes ct _ fsz re s _ hp (Or.inl h)]

/-- C5 witness: `bytes=2000-` on a 1000-byte file returns 416. -/
theorem range_start_beyond_size_416_witness :
    mkRangeHdr (some 2000) none = "bytes=2000-".toList ∧
    (2000 : Nat) ≥ 1000 ∧
    (send_range_request (List.replicate 1000 0) "audio/mpeg".toList
      (mkRangeHdr (some 2000) none) 1000 none).status = 416 :=
  ⟨by decide, by omega,
    range_start_beyond_size_416 (List.replicate 1000 0) "audio/mpeg".toList 2000 none 1000
      none (by omega)⟩

/-! ### Claim C3 -/

theorem parse_snd_pos (hdr : List Char) (fsz : Nat) (h : 1 ≤ fsz) (s e : Nat)
    (hp : parse_range_header hdr fsz = (s, e)) : 1 ≤ e := by
  unfold parse_range_header at hp
  dsimp only at hp
  repeat' split at hp
  all_goals (injection hp with h1 h2; omega)

/-- C3 counterexample: the header `bytes=5-2` on a 100-byte file produces a
206 whose RangeSpec has startByte 5, inclusive endByte 2 (start exceeds end)
and a declared `Content-Length` of `-2`, refuting the claimed invariant
`0 <= startByte <= endByte < totalSize` and refuting that no 206 with a
negative declared Content-Length is produced. -/
theorem rangespec_start_can_exceed_end_206 :
    parse_range_header "bytes=5-2".toList 100 = (5, 3) ∧
    (send_range_request (List.replicate 100 7) "audio/mpeg".toList
      "bytes=5-2".toList 100 none).status = 206 ∧
    (send_range_request (List.replicate 100 7) "audio/mpeg".toList
      "bytes=5-2".toList 100 none).contentRange = some "bytes 5-2/100".toList ∧
    (send_range_request (List.replicate 100 7) "audio/mpeg".toList
      "bytes=5-2".toList 100 none).contentLength = some "-2".toList := by
  refine ⟨by decide, ?_, ?_, ?_⟩
  · rw [send_range_206 (List.replicate 100 7) "audio/mpeg".toList "bytes=5-2".toList 100
      5 3 (by decide) (by omega)]
  · rw [send_range_206 (List.replicate 100 7) "audio/mpeg".toList "bytes=5-2".toList 100
      5 3 (by decide) (by omega)]
    decide
  · rw [send_range_206 (List.replicate 100 7) "audio/mpeg".toList "bytes=5-2".toList 100
      5 3 (by decide) (by omega)]
    decide

/-- C3 amended: every RangeSpec `(s, e - 1, fsz)` (start, inclusive end,
total) used to build a 206 response satisfies `0 <= s < fsz` and
`0 <= e - 1 < fsz`; the claimed `s <= e - 1` is not guaranteed (see the
counterexample), so a 206 with a negative declared Content-Length can occur. -/
theorem rangespec_206_bounds_within_total (bytes : List Nat) (ct hdr : List Char)
    (fsz : Nat) (re : Option (List Char)) (s e : Nat)
    (hp : parse_range_header hdr fsz = (s, e))
    (h206 : (send_range_request bytes ct hdr fsz re).status = 206) :
    s < fsz ∧ 1 ≤ e ∧ e - 1 < fsz := by
  by_cases hcond : s ≥ fsz ∨ e > fsz
  · rw [send_range_416 bytes ct hdr fsz re s e hp hcond] at h206
    exact absurd h206 (by decide)
  · have hs : s < fsz := by omega
    have hpos : 1 ≤ e := parse_snd_pos hdr fsz (by omega) s e hp
    exact ⟨hs, hpos, by omega⟩

/-- C3 amended witness: `bytes=0-9` on a 100-byte file gives a 206 whose
RangeSpec bounds lie inside the total size. -/
theorem rangespec_206_bounds_within_total_witness :
    parse_range_header "bytes=0-9".toList 100 = (0, 10) ∧
    (send_range_request (List.replicate 100 7) "audio/mpeg".toList
      "bytes=0-9".toList 100 none).status = 206 ∧
    ((0 : Nat) < 100 ∧ (1 : Nat) ≤ 10 ∧ (10 : Nat) - 1 < 100) := by
  have h206 : (send_range_request (List.replicate 100 7) "audio/mpeg".toList
      "bytes=0-9".toList 100 none).status = 206 := by
    rw [send_range_206 (List.replicate 100 7) "audio/mpeg".toList "bytes=0-9".toList 100
      0 10 (by decide) (by omega)]
  exact ⟨by decide, h206,
    rangespec_206_bounds_within_total (List.replicate 100 7) "audio/mpeg".toList
      "bytes=0-9".toList 100 none 0 10 (by decide) h206⟩

/-! ### Claim C2 -/

theorem mem_dropWhile (p : Char → Bool) (l : List Char) (c : Char)
    (hc : c ∈ l) (hp : p c = false) : c ∈ l.dropWhile p := by
  induction l with
  | nil => simp at hc
  | cons a t ih =>
    rw [List.dropWhile_cons]
    by_cases ha : p a = true
    · rw [if_pos ha]
      rcases List.mem_cons.1 hc with he | hm
      · subst he; rw [ha] at hp; exact absurd hp (by simp)
      · exact ih hm
    · rw [if_neg ha]
      exact hc

theorem mem_pyStrip (l : List Char) (c : Char) (hc : c ∈ l) (hs : isPySpace c = false) :
    c ∈ pyStrip l := by
  unfold pyStrip
  rw [List.mem_reverse]
  apply mem_dropWhile _ _ _ _ hs
  rw [List.mem_reverse]
  exact mem_dropWhile _ _ _ hc hs

theorem pyInt_none_of_bad_mem (l : List Char) (c : Char) (hc : c ∈ l)
    (hs : isPySpace c = false) (hplus : c ≠ '+') (hd : isDig c = false) :
    pyInt l = none := by
  unfold pyInt
  dsimp only
  have h1 : c ∈ pyStrip l := mem_pyStrip l c hc hs
  have h2 : c ∈ (if (pyStrip l).headD ' ' = '+' then (pyStrip l).tail else pyStrip l) := by
    by_cases hh : (pyStrip l).headD ' ' = '+'
    · rw [if_pos hh]
      cases hL : pyStrip l with
      | nil => rw [hL] at hh; exact absurd hh (by decide)
      | cons x xs =>
        rw [hL] at hh
        simp only [List.headD_cons] at hh
        subst hh
        rw [hL] at h1
        rcases List.mem_cons.1 h1 with he | hm
        · exact absurd he hplus
        · simpa using hm
    · rw [if_neg hh]; exact h1
  have hncond : ¬ ((if (pyStrip l).headD ' ' = '+' then (pyStrip l).tail else pyStrip l) ≠ [] ∧
      (if (pyStrip l).headD ' ' = '+' then (pyStrip l).tail else pyStrip l).all isDig) := by
    rintro ⟨hne, hall⟩
    rw [List.all_eq_true] at hall
    have := hall c h2
    rw [hd] at this
    exact absurd this (by simp)
  rw [if_neg hncond]

theorem splitOnChar_head_mem (sep x : Char) (a : List Char) (l : List Char)
    (ha : sep ∉ a) (hx : ¬ x = sep) :
    ∃ p t, splitOnChar sep (a ++ x :: l) = p :: t ∧ x ∈ p ∧ p ≠ [] := by
  induction a with
  | nil =>
    simp only [List.nil_append]
    rw [splitOnChar, if_neg hx]
    rcases hs : splitOnChar sep l with _ | ⟨p, ps⟩
    · exact absurd hs (splitOnChar_ne_nil sep l)
    · exact ⟨x :: p, ps, rfl, by simp, by simp⟩
  | cons c cs ih =>
    have hc : ¬ c = sep := fun he => ha (by rw [he]; simp)
    obtain ⟨p, t, hsp, hxp, hpne⟩ := ih (fun hm => ha (by simp [hm]))
    rw [List.cons_append, splitOnChar, if_neg hc, hsp]
    exact ⟨c :: p, t, rfl, by simp [hxp], by simp⟩

theorem parse_multirange (a b : Nat) (rest : List Char) (fsz : Nat)
    (hrest : ∀ c ∈ rest, isPySpace c = false ∧ c ≠ '=') :
    parse_range_header (mkMultiRangeHdr a b rest) fsz = (0, fsz) := by
  have hS : mkMultiRangeHdr a b rest =
      "bytes".toList ++ '=' :: (natStr a ++ '-' :: (natStr b ++ ',' :: rest)) := rfl
  have hSchars : ∀ c ∈ natStr a ++ '-' :: (natStr b ++ ',' :: rest),
      isDig c = true ∨ c = '-' ∨ c = ',' ∨ c ∈ rest := by
    intro c hc
    rcases List.mem_append.1 hc with hc | hc
    · exact Or.inl (natStr_all_dig a c hc)
    · rcases List.mem_cons.1 hc with hc | hc
      · exact Or.inr (Or.inl hc)
      · rcases List.mem_append.1 hc with hc | hc
        · exact Or.inl (natStr_all_dig b c hc)
        · rcases List.mem_cons.1 hc with hc | hc
          · exact Or.inr (Or.inr (Or.inl hc))
          · exact Or.inr (Or.inr (Or.inr hc))
  have hne : '=' ∉ natStr a ++ '-' :: (natStr b ++ ',' :: rest) := by
    intro hm
    rcases hSchars '=' hm with hd | hd | hd | hd
    · exact absurd hd (by decide)
    · exact absurd hd (by decide)
    · exact absurd hd (by decide)
    · exact absurd (hrest '=' hd).2 (by simp)
  have hsplit : splitOnChar '=' (mkMultiRangeHdr a b rest) =
      ["bytes".toList, natStr a ++ '-' :: (natStr b ++ ',' :: rest)] := by
    rw [hS, splitOnChar_append '=' _ _ (by decide), splitOnChar_no_sep '=' _ hne]
  have hstrip : pyStrip (natStr a ++ '-' :: (natStr b ++ ',' :: rest)) =
      natStr a ++ '-' :: (natStr b ++ ',' :: rest) := by
    apply pyStrip_eq_self_of_all
    intro c hc
    rcases hSchars c hc with hd | hd | hd | hd
    · exact isDig_not_space c hd
    · rw [hd]; decide
    · rw [hd]; decide
    · exact (hrest c hd).1
  obtain ⟨p, t, hsplit2, hmem, hpne⟩ :=
    splitOnChar_head_mem '-' ',' (natStr b) rest
      (fun hm => absurd (natStr_all_dig b '-' hm) (by decide)) (by decide)
  have hint : pyInt p = none :=
    pyInt_none_of_bad_mem p ',' hmem (by decide) (by decide) (by decide)
  unfold parse_range_header
  rw [hsplit]
  simp only [hstrip]
  rw [if_neg (by decide)]
  rw [splitOnChar_append '-' _ _ (fun hm => absurd (natStr_all_dig a '-' hm) (by decide))]
  rw [hsplit2]
  simp only [List.headD_cons, List.getD_cons_succ, List.getD_cons_zero, List.length_cons]
  rw [if_neg (natStr_ne_nil a), pyInt_natStr a]
  dsimp only
  rw [if_pos ⟨by omega, hpne⟩]
  rw [hint]

/-- C2 counterexample: the multi-range header `bytes=0-10,20-30` on a
100-byte file is NOT answered with the first range spec (bytes 0-10, an
11-byte span): `int('10,20')` raises, the parse falls back to the whole
file, and the 206 response carries all 100 bytes with
`Content-Range: bytes 0-99/100`. -/
theorem multirange_returns_whole_file_not_first_range :
    parse_range_header "bytes=0-10,20-30".toList 100 = (0, 100) ∧
    (send_range_request (List.replicate 100 7) "audio/mpeg".toList
      "bytes=0-10,20-30".toList 100 none).status = 206 ∧
    bodyLen (send_range_request (List.replicate 100 7) "audio/mpeg".toList
      "bytes=0-10,20-30".toList 100 none).body = 100 ∧
    (send_range_request (List.replicate 100 7) "audio/mpeg".toList
      "bytes=0-10,20-30".toList 100 none).contentRange =
      some "bytes 0-99/100".toList := by
  decide

/-- C2 amended: a multi-range header `bytes=A-B,rest` makes the range parse
fail (the comma lands inside `int(range_parts[1])`, which raises), so the
request is answered by a 206 carrying the entire file, not by the first
range spec. -/
theorem multirange_parse_fails_serves_whole_file (bytes : List Nat) (ct : List Char)
    (a b : Nat) (rest : List Char)
    (hrest : ∀ c ∈ rest, isPySpace c = false ∧ c ≠ '=')
    (hlen : 1 ≤ bytes.length) :
    parse_range_header (mkMultiRangeHdr a b rest) bytes.length = (0, bytes.length) ∧
    (send_range_request bytes ct (mkMultiRangeHdr a b rest) bytes.length none).status = 206 ∧
    (send_range_request bytes ct (mkMultiRangeHdr a b rest) bytes.length none).body =
      RespBody.bytes bytes := by
  have hp := parse_multirange a b rest bytes.length hrest
  refine ⟨hp, ?_, ?_⟩
  · rw [send_range_206 bytes ct _ bytes.length 0 bytes.length hp (by omega)]
  · rw [send_range_206 bytes ct _ bytes.length 0 bytes.length hp (by omega)]
    simp only [List.drop_zero]
    unfold pyRead
    rw [if_neg (by omega)]
    congr 1
    have h1 : ((bytes.length : Int) - (0 : Nat)).toNat = bytes.length := by omega
    rw [h1, List.take_length]

/-- C2 amended witness: `bytes=0-10,20-30` on a 100-byte file parses to the
whole-file range and the 206 carries the entire file. -/
theorem multirange_parse_fails_serves_whole_file_witness :
    mkMultiRangeHdr 0 10 "20-30".toList = "bytes=0-10,20-30".toList ∧
    (parse_range_header (mkMultiRangeHdr 0 10 "20-30".toList)
        (List.replicate 100 7).length = (0, (List.replicate 100 7).length) ∧
      (send_range_request (List.replicate 100 7) "audio/mpeg".toList
        (mkMultiRangeHdr 0 10 "20-30".toList) (List.replicate 100 7).length none).status = 206 ∧
      (send_range_request (List.replicate 100 7) "audio/mpeg".toList
        (mkMultiRangeHdr 0 10 "20-30".toList) (List.replicate 100 7).length none).body =
        RespBody.bytes (List.replicate 100 7)) :=
  ⟨by decide,
    multirange_parse_fails_serves_whole_file (List.replicate 100 7) "audio/mpeg".toList
      0 10 "20-30".toList (by decide) (by simp)⟩

/-! ### Claim C1 -/

theorem intStr_sub_nat (a b : Nat) (h : b ≤ a) :
    intStr ((a : Int) - (b : Int)) = natStr (a - b) := by
  unfold intStr
  rw [if_neg (by omega)]
  congr 1
  omega

/-- C1 counterexample: serving the cached 12000-byte file `a.mp3` via
`/stream` with the Range header `bytes=5-2` (START = 5 < 12000, END clamped
to 2): the claim predicts a body that is exactly the byte span from 5 to 2
(empty, `Content-Length = END-START+1 = -2`); the code instead returns a 206
whose declared `Content-Length` is `-2` while the body is `read(-2)`, i.e.
all 11995 bytes from offset 5 to the end of the file. -/
theorem stream_range_reversed_bounds_body_mismatch :
    (stream_file FfmpegOutcome.crash FfmpegOutcome.crash none
        [("a".toList ++ mp3L, ⟨List.replicate 12000 7, 0⟩)] ("a".toList ++ mp3L)
        (some "bytes=5-2".toList)).1.status = 206 ∧
    (stream_file FfmpegOutcome.crash FfmpegOutcome.crash none
        [("a".toList ++ mp3L, ⟨List.replicate 12000 7, 0⟩)] ("a".toList ++ mp3L)
        (some "bytes=5-2".toList)).1.contentRange = some "bytes 5-2/12000".toList ∧
    (stream_file FfmpegOutcome.crash FfmpegOutcome.crash none
        [("a".toList ++ mp3L, ⟨List.replicate 12000 7, 0⟩)] ("a".toList ++ mp3L)
        (some "bytes=5-2".toList)).1.contentLength = some "-2".toList ∧
    bodyLen (stream_file FfmpegOutcome.crash FfmpegOutcome.crash none
        [("a".toList ++ mp3L, ⟨List.replicate 12000 7, 0⟩)] ("a".toList ++ mp3L)
        (some "bytes=5-2".toList)).1.body = 11995 := by
  have hl : fsLookup [("a".toList ++ mp3L, (⟨List.replicate 12000 7, 0⟩ : FileData))]
      ("a".toList ++ mp3L) = some ⟨List.replicate 12000 7, 0⟩ := by
    rw [fsLookup, if_pos rfl]
  have hsz : ¬ ((⟨List.replicate 12000 7, 0⟩ : FileData)).bytes.length < 10000 := by
    show ¬ (List.replicate 12000 (7 : Nat)).length < 10000
    rw [List.length_replicate]
    omega
  have hstream := stream_file_mp3_range FfmpegOutcome.crash FfmpegOutcome.crash none
    [("a".toList ++ mp3L, ⟨List.replicate 12000 7, 0⟩)] "a".toList
    ⟨List.replicate 12000 7, 0⟩ "bytes=5-2".toList (by decide) hl hsz rfl
  rw [hstream]
  have hlen : ((⟨List.replicate 12000 7, 0⟩ : FileData)).bytes.length = 12000 := by
    show (List.replicate 12000 (7 : Nat)).length = 12000
    exact List.length_replicate 12000 7
  rw [hlen]
  rw [send_range_206 (⟨List.replicate 12000 7, 0⟩ : FileData).bytes "audio/mpeg".toList
    "bytes=5-2".toList 12000 5 3 (by decide) (by omega)]
  refine ⟨rfl, by decide, by decide, ?_⟩
  show bodyLen (RespBody.bytes
    (pyRead ((⟨List.replicate 12000 7, 0⟩ : FileData).bytes.drop 5)
      ((3 : Int) - (5 : Int)))) = 11995
  unfold pyRead
  rw [if_pos (by decide)]
  show ((List.replicate 12000 (7 : Nat)).drop 5).length = 11995
  rw [List.drop_replicate, List.length_replicate]

/-- C1 amended: for every cached `.mp3` file served through the code's own
range path (`send_range_request`, reached from `/stream` for `.mp3` names)
with a Range header `bytes=START-END` where `START < fileSize` and
`START <= END` after clamping END to `fileSize - 1` (missing START defaults
to 0, missing END to the file end), and where the in-place ffmpeg re-encode
leaves the file unchanged (here: the ffmpeg call raises and is swallowed),
the response is a 206 with `Content-Range: bytes START-END/fileSize`,
`Content-Length = END-START+1`, and a body of exactly that byte span; the
downloads directory is unchanged. -/
theorem stream_mp3_range_serves_exact_span
    (fs : FS) (base : List Char) (fd : FileData) (so eo : Option Nat) (o2 : FfmpegOutcome)
    (hsafe : ¬ (containsSub ddL (base ++ mp3L) = true ∨ '/' ∈ base ++ mp3L))
    (hl : fsLookup fs (base ++ mp3L) = some fd)
    (hsz : 10000 ≤ fd.bytes.length)
    (hstart : so.getD 0 < fd.bytes.length)
    (hse : so.getD 0 ≤ min (eo.getD (fd.bytes.length - 1)) (fd.bytes.length - 1)) :
    (stream_file FfmpegOutcome.crash o2 none fs (base ++ mp3L)
        (some (mkRangeHdr so eo))).1 =
      { status := 206,
        body := RespBody.bytes ((fd.bytes.drop (so.getD 0)).take
          (min (eo.getD (fd.bytes.length - 1)) (fd.bytes.length - 1) - so.getD 0 + 1)),
        contentType := some "audio/mpeg".toList,
        contentRange := some ("bytes ".toList ++ natStr (so.getD 0) ++ '-' ::
          natStr (min (eo.getD (fd.bytes.length - 1)) (fd.bytes.length - 1)) ++ '/' ::
          natStr fd.bytes.length),
        contentLength := some (natStr
          (min (eo.getD (fd.bytes.length - 1)) (fd.bytes.length - 1) - so.getD 0 + 1)),
        acceptRanges := true } ∧
    (stream_file FfmpegOutcome.crash o2 none fs (base ++ mp3L)
        (some (mkRangeHdr so eo))).2 = fs := by
  have hstream := stream_file_mp3_range FfmpegOutcome.crash o2 none fs base fd
    (mkRangeHdr so eo) hsafe hl (by omega) rfl
  have hrend : min ((eo.map (fun e => e + 1)).getD fd.bytes.length) fd.bytes.length =
      min (eo.getD (fd.bytes.length - 1)) (fd.bytes.length - 1) + 1 := by
    cases eo with
    | none =>
      simp only [Option.map_none', Option.getD_none]
      omega
    | some b =>
      simp only [Option.map_some', Option.getD_some]
      omega
  have hp : parse_range_header (mkRangeHdr so eo) fd.bytes.length =
      (so.getD 0, min (eo.getD (fd.bytes.length - 1)) (fd.bytes.length - 1) + 1) := by
    rw [parse_mkRangeHdr so eo fd.bytes.length, hrend]
  refine ⟨?_, by rw [hstream]⟩
  rw [hstream]
  rw [send_range_206 fd.bytes "audio/mpeg".toList (mkRangeHdr so eo) fd.bytes.length
    (so.getD 0) (min (eo.getD (fd.bytes.length - 1)) (fd.bytes.length - 1) + 1) hp
    (by omega)]
  have hbody : pyRead (fd.bytes.drop (so.getD 0))
      (((min (eo.getD (fd.bytes.length - 1)) (fd.bytes.length - 1) + 1 : Nat) : Int) -
        ((so.getD 0 : Nat) : Int)) =
      (fd.bytes.drop (so.getD 0)).take
        (min (eo.getD (fd.bytes.length - 1)) (fd.bytes.length - 1) - so.getD 0 + 1) := by
    unfold pyRead
    rw [if_neg (by omega)]
    congr 1
    omega
  have hcr : intStr (((min (eo.getD (fd.bytes.length - 1)) (fd.bytes.length - 1) + 1 :
      Nat) : Int) - 1) =
      natStr (min (eo.getD (fd.bytes.length - 1)) (fd.bytes.length - 1)) := by
    unfold intStr
    rw [if_neg (by omega)]
    congr 1
    omega
  have hcl : intStr (((min (eo.getD (fd.bytes.length - 1)) (fd.bytes.length - 1) + 1 :
      Nat) : Int) - ((so.getD 0 : Nat) : Int)) =
      natStr (min (eo.getD (fd.bytes.length - 1)) (fd.bytes.length - 1) - so.getD 0 + 1) := by
    rw [intStr_sub_nat _ _ (by omega)]
    congr 1
    omega
  rw [hbody, hcr, hcl]

/-- C1 amended witness: `bytes=0-99` on a 10000-byte cached `a.mp3` is a 206
with `Content-Range: bytes 0-99/10000` and a 100-byte body. -/
theorem stream_mp3_range_serves_exact_span_witness :
    mkRangeHdr (some 0) (some 99) = "bytes=0-99".toList ∧
    (stream_file FfmpegOutcome.crash FfmpegOutcome.failure none
        [("a".toList ++ mp3L, ⟨List.replicate 10000 7, 0⟩)] ("a".toList ++ mp3L)
        (some (mkRangeHdr (some 0) (some 99)))).1.status = 206 ∧
    (stream_file FfmpegOutcome.crash FfmpegOutcome.failure none
        [("a".toList ++ mp3L, ⟨List.replicate 10000 7, 0⟩)] ("a".toList ++ mp3L)
        (some (mkRangeHdr (some 0) (some 99)))).1.contentRange =
      some "bytes 0-99/10000".toList ∧
    bodyLen (stream_file FfmpegOutcome.crash FfmpegOutcome.failure none
        [("a".toList ++ mp3L, ⟨List.replicate 10000 7, 0⟩)] ("a".toList ++ mp3L)
        (some (mkRangeHdr (some 0) (some 99)))).1.body = 100 := by
  have hl : fsLookup [("a".toList ++ mp3L, (⟨List.replicate 10000 7, 0⟩ : FileData))]
      ("a".toList ++ mp3L) = some ⟨List.replicate 10000 7, 0⟩ := by
    rw [fsLookup, if_pos rfl]
  have hlen : ((⟨List.replicate 10000 7, 0⟩ : FileData)).bytes.length = 10000 := by
    show (List.replicate 10000 (7 : Nat)).length = 10000
    exact List.length_replicate 10000 7
  have hmain := stream_mp3_range_serves_exact_span
    [("a".toList ++ mp3L, ⟨List.replicate 10000 7, 0⟩)] "a".toList
    ⟨List.replicate 10000 7, 0⟩ (some 0) (some 99) FfmpegOutcome.failure
    (by decide) hl (by rw [hlen]) (by rw [hlen]; decide)
    (by rw [hlen]; decide)
  refine ⟨by decide, ?_, ?_, ?_⟩
  · rw [hmain.1]
  · rw [hmain.1]
    rw [hlen]
    decide
  · rw [hmain.1]
    show ((((⟨List.replicate 10000 7, 0⟩ : FileData)).bytes.drop ((some (0 : Nat)).getD 0)).take
      (min ((some (99 : Nat)).getD (((⟨List.replicate 10000 7, 0⟩ : FileData)).bytes.length - 1))
        (((⟨List.replicate 10000 7, 0⟩ : FileData)).bytes.length - 1) -
        (some (0 : Nat)).getD 0 + 1)).length = 100
    rw [hlen]
    show (((List.replicate 10000 (7 : Nat)).drop ((some (0 : Nat)).getD 0)).take
      (min ((some (99 : Nat)).getD (10000 - 1)) (10000 - 1) -
        (some (0 : Nat)).getD 0 + 1)).length = 100
    rw [List.drop_replicate, List.take_replicate, List.length_replicate]
    decide

/-! ### Claim C8 -/

/-- C8 counterexample: a 1000-character internal exception text raised while
reading the file in the range path is returned to the client verbatim and in
full as the 500 response body — not a generic safe message, and not bounded
by any diagnostic-snippet limit. -/
theorem boundary_500_leaks_long_message :
    (send_range_request [] "audio/mpeg".toList "bytes=0-0".toList 100
      (some (List.replicate 1000 'x'))).status = 500 ∧
    (send_range_request [] "audio/mpeg".toList "bytes=0-0".toList 100
      (some (List.replicate 1000 'x'))).body = RespBody.text (List.replicate 1000 'x') ∧
    bodyLen (send_range_request [] "audio/mpeg".toList "bytes=0-0".toList 100
      (some (List.replicate 1000 'x'))).body = 1000 := by
  have h := send_range_exc [] "audio/mpeg".toList "bytes=0-0".toList 100
    (List.replicate 1000 'x') 0 1 (by decide) (by omega)
  rw [h]
  refine ⟨rfl, rfl, ?_⟩
  show (List.replicate 1000 'x').length = 1000
  exact List.length_replicate 1000 'x'

/-- C8 amended: unexpected exceptions at the `/stream` boundary and inside
`send_range_request` are caught and mapped to a 500, but the exception text
`str(e)` is embedded verbatim and unbounded in the response (in the
`jsonify` error for `/stream`, as the raw body for the range path); only the
`/download` endpoint uses a generic message. -/
theorem boundary_500_carries_raw_message (msg : List Char) (o1 o2 : FfmpegOutcome)
    (re : Option (List Char)) (fs : FS) (fn : List Char) (rh : Option (List Char))
    (bytes : List Nat) (ct : List Char) :
    (stream_file_boundary (some msg) o1 o2 re fs fn rh).1 = jsonResp 500 msg ∧
    (send_range_request bytes ct "bytes=0-0".toList 100 (some msg)).status = 500 ∧
    (send_range_request bytes ct "bytes=0-0".toList 100 (some msg)).body =
      RespBody.text msg := by
  refine ⟨rfl, ?_, ?_⟩
  · rw [send_range_exc bytes ct "bytes=0-0".toList 100 msg 0 1 (by decide) (by omega)]
  · rw [send_range_exc bytes ct "bytes=0-0".toList 100 msg 0 1 (by decide) (by omega)]

/-! ### Claim C9 -/

/-- C9: any `/stream` filename containing `..` or `/` is answered with a 400
`Invalid filename` error, and the result is the same for every state of the
downloads directory, which is left untouched — the check precedes all
filesystem access. -/
theorem stream_rejects_dotdot_slash_before_fs (o1 o2 : FfmpegOutcome)
    (re : Option (List Char)) (fs : FS) (filename : List Char)
    (rh : Option (List Char))
    (h : containsSub ddL filename = true ∨ '/' ∈ filename) :
    (stream_file o1 o2 re fs filename rh).1 = jsonResp 400 "Invalid filename".toList ∧
    (stream_file o1 o2 re fs filename rh).2 = fs := by
  unfold stream_file
  rw [if_pos h]
  exact ⟨rfl, rfl⟩

/-- C9 witness: `../../etc/passwd` is rejected with 400. -/
theorem stream_rejects_dotdot_slash_before_fs_witness :
    containsSub ddL "../../etc/passwd".toList = true ∧
    (stream_file FfmpegOutcome.failure FfmpegOutcome.failure none
      [("a".toList ++ mp3L, ⟨[], 0⟩)] "../../etc/passwd".toList none).1 =
      jsonResp 400 "Invalid filename".toList :=
  ⟨by decide, (stream_rejects_dotdot_slash_before_fs FfmpegOutcome.failure
    FfmpegOutcome.failure none [("a".toList ++ mp3L, ⟨[], 0⟩)]
    "../../etc/passwd".toList none (Or.inl (by decide))).1⟩

/-! ### Claim C4 -/

/-- C4 counterexample: a sweep at time 200000 over two files, both old
enough to evict, where deleting the first raises: the exception escapes the
`for` loop, so the pass ends at once — the second file is not examined or
deleted in that same pass, refuting the claim that the sweep continues with
the remaining files. -/
theorem sweep_aborts_pass_after_failed_delete :
    cleanup_pass 200000 [⟨"a".toList, true, 0, true⟩, ⟨"b".toList, true, 0, false⟩] =
      ([], true) ∧
    "b".toList ∉ (cleanup_pass 200000
      [⟨"a".toList, true, 0, true⟩, ⟨"b".toList, true, 0, false⟩]).1 := by
  decide

/-- C4 amended: when a delete fails, the exception propagates out of the
per-file loop: the files already processed stay deleted, but every file
after the failing one is skipped for that pass. The exception is then caught
by the thread's handler, which logs and sleeps 300 seconds — the cleanup
thread itself (the caller) never fails and retries on a later pass. -/
theorem sweep_failure_stops_pass_but_not_thread (now : Nat) (pre : List SweepEntry)
    (bad : SweepEntry) (post : List SweepEntry)
    (hpre : ∀ e ∈ pre, e.isfile = true ∧ now - e.mtime > 86400 → e.removeFails = false)
    (hbad : bad.isfile = true ∧ now - bad.mtime > 86400)
    (hfail : bad.removeFails = true) :
    cleanup_pass now (pre ++ bad :: post) =
      ((pre.filter (fun e => decide (e.isfile = true ∧ now - e.mtime > 86400))).map
        SweepEntry.name, true) ∧
    (cleanup_thread_iter now (pre ++ bad :: post)).2 = 300 := by
  have hpass : cleanup_pass now (pre ++ bad :: post) =
      ((pre.filter (fun e => decide (e.isfile = true ∧ now - e.mtime > 86400))).map
        SweepEntry.name, true) := by
    induction pre with
    | nil =>
      simp only [List.nil_append, List.filter_nil, List.map_nil]
      rw [cleanup_pass, if_pos hbad, if_pos hfail]
    | cons e es ih =>
      rw [List.cons_append, cleanup_pass]
      by_cases helig : e.isfile = true ∧ now - e.mtime > 86400
      · rw [if_pos helig]
        have hrf : e.removeFails = false := hpre e (by simp) helig
        rw [hrf, if_neg (by simp)]
        rw [ih (fun x hx hex => hpre x (by simp [hx]) hex)]
        dsimp only
        rw [List.filter_cons]
        rw [decide_eq_true helig]
        rw [if_pos rfl]
        rw [List.map_cons]
      · rw [if_neg helig]
        rw [ih (fun x hx hex => hpre x (by simp [hx]) hex)]
        rw [List.filter_cons]
        rw [decide_eq_false helig]
        rw [if_neg (by simp)]
  refine ⟨hpass, ?_⟩
  unfold cleanup_thread_iter
  rw [hpass]
  rfl

/-- C4 amended witness: at time 200000, with an old deletable file `x`, then
an old file `y` whose delete fails, then an old file `z`: the pass deletes
exactly `x`, aborts before `z`, and the thread survives, sleeping 300s. -/
theorem sweep_failure_stops_pass_but_not_thread_witness :
    cleanup_pass 200000 [⟨"x".toList, true, 100000, false⟩, ⟨"y".toList, true, 0, true⟩,
      ⟨"z".toList, true, 0, false⟩] = (["x".toList], true) ∧
    (cleanup_thread_iter 200000 [⟨"x".toList, true, 100000, false⟩,
      ⟨"y".toList, true, 0, true⟩, ⟨"z".toList, true, 0, false⟩]).2 = 300 := by
  have h := sweep_failure_stops_pass_but_not_thread 200000
    [⟨"x".toList, true, 100000, false⟩] ⟨"y".toList, true, 0, true⟩
    [⟨"z".toList, true, 0, false⟩] (by decide) (by decide) rfl
  exact ⟨h.1.trans (by decide), h.2⟩

/-! ### Claim C10 -/

theorem stream_file_mp3_snd (o1 o2 : FfmpegOutcome) (re : Option (List Char)) (fs : FS)
    (base : List Char) (fd : FileData) (rh : Option (List Char))
    (hsafe : ¬ (containsSub ddL (base ++ mp3L) = true ∨ '/' ∈ base ++ mp3L))
    (hl : fsLookup fs (base ++ mp3L) = some fd)
    (hsz : ¬ fd.bytes.length < 10000) :
    (stream_file o1 o2 re fs (base ++ mp3L) rh).2 =
      (ensure_audio_compatibility o1 o2 fs (base ++ mp3L)).2 := by
  unfold stream_file
  rw [if_neg hsafe]
  simp only [hl]
  rw [if_neg hsz]
  simp only [pyEndsWith_append base mp3L, if_true]
  cases rh with
  | none => rfl
  | some hdr => rfl

theorem download_media_audio_hit (y : YtdlpOutcome) (o1 o2 : FfmpegOutcome) (fs : FS)
    (vid : List Char) (fd : FileData)
    (hl : fsLookup fs (vid ++ mp3L) = some fd)
    (hsz : fd.bytes.length > 50000) :
    download_media y o1 o2 fs vid true =
      ((true, vid ++ mp3L), (ensure_audio_compatibility o1 o2 fs (vid ++ mp3L)).2) := by
  unfold download_media
  dsimp only
  rw [if_pos rfl]
  simp only [hl]
  rw [if_pos hsz]
  rw [if_pos trivial]

/-- C10: serving an `.mp3` file via `/stream` and an audio cache hit in
`download_media` are not read-only: both run `ensure_audio_compatibility`,
which on ffmpeg success removes the original file and moves the freshly
encoded temp file over its path, so afterwards the downloads directory maps
that filename to the ffmpeg output `out` — whose bytes and mtime can differ
from the previously cached data — and no longer to the old data. -/
theorem audio_read_path_reencodes_in_place
    (fs : FS) (base : List Char) (fd out : FileData) (o2 : FfmpegOutcome)
    (rh : Option (List Char)) (re : Option (List Char)) (y : YtdlpOutcome)
    (vid : List Char) (fd2 : FileData)
    (hsafe : ¬ (containsSub ddL (base ++ mp3L) = true ∨ '/' ∈ base ++ mp3L))
    (hl : fsLookup fs (base ++ mp3L) = some fd)
    (hsz : 10000 ≤ fd.bytes.length)
    (hl2 : fsLookup fs (vid ++ mp3L) = some fd2)
    (hsz2 : 50000 < fd2.bytes.length) :
    (stream_file (FfmpegOutcome.success out) o2 re fs (base ++ mp3L) rh).2 =
      fsUpdate fs (base ++ mp3L) out ∧
    (download_media y (FfmpegOutcome.success out) o2 fs vid true).2 =
      fsUpdate fs (vid ++ mp3L) out ∧
    (out ≠ fd → fsLookup (fsUpdate fs (base ++ mp3L) out) (base ++ mp3L) ≠ some fd) := by
  refine ⟨?_, ?_, ?_⟩
  · rw [stream_file_mp3_snd (FfmpegOutcome.success out) o2 re fs base fd rh hsafe hl
      (by omega)]
    rw [ensure_success out o2 fs (base ++ mp3L) fd hl (by omega)]
  · rw [download_media_audio_hit y (FfmpegOutcome.success out) o2 fs vid fd2 hl2 hsz2]
    rw [ensure_success out o2 fs (vid ++ mp3L) fd2 hl2 (by omega)]
  · intro hne heq
    rw [fsLookup_update_self fs (base ++ mp3L) out] at heq
    exact hne (Option.some.inj heq)

/-- C10 witness: a 50001-byte cached `a.mp3`; after a `/stream` request (or
an audio cache hit in `download_media`) with a successful ffmpeg re-encode
producing `⟨[1, 2, 3], 99⟩`, the directory maps `a.mp3` to that new data and
no longer to the old bytes. -/
theorem audio_read_path_reencodes_in_place_witness :
    (stream_file (FfmpegOutcome.success ⟨[1, 2, 3], 99⟩) FfmpegOutcome.failure none
        [("a".toList ++ mp3L, ⟨List.replicate 50001 7, 0⟩)] ("a".toList ++ mp3L) none).2 =
      fsUpdate [("a".toList ++ mp3L, ⟨List.replicate 50001 7, 0⟩)] ("a".toList ++ mp3L)
        ⟨[1, 2, 3], 99⟩ ∧
    (download_media (YtdlpOutcome.crash []) (FfmpegOutcome.success ⟨[1, 2, 3], 99⟩)
        FfmpegOutcome.failure [("a".toList ++ mp3L, ⟨List.replicate 50001 7, 0⟩)]
        "a".toList true).2 =
      fsUpdate [("a".toList ++ mp3L, ⟨List.replicate 50001 7, 0⟩)] ("a".toList ++ mp3L)
        ⟨[1, 2, 3], 99⟩ ∧
    fsLookup (fsUpdate [("a".toList ++ mp3L, ⟨List.replicate 50001 7, 0⟩)]
        ("a".toList ++ mp3L) ⟨[1, 2, 3], 99⟩) ("a".toList ++ mp3L) ≠
      some (⟨List.replicate 50001 7, 0⟩ : FileData) := by
  have hl : fsLookup [("a".toList ++ mp3L, (⟨List.replicate 50001 7, 0⟩ : FileData))]
      ("a".toList ++ mp3L) = some ⟨List.replicate 50001 7, 0⟩ := by
    rw [fsLookup, if_pos rfl]
  have hlen : ((⟨List.replicate 50001 7, 0⟩ : FileData)).bytes.length = 50001 := by
    show (List.replicate 50001 (7 : Nat)).length = 50001
    exact List.length_replicate 50001 7
  have hmain := audio_read_path_reencodes_in_place
    [("a".toList ++ mp3L, ⟨List.replicate 50001 7, 0⟩)] "a".toList
    ⟨List.replicate 50001 7, 0⟩ ⟨[1, 2, 3], 99⟩ FfmpegOutcome.failure none none
    (YtdlpOutcome.crash []) "a".toList ⟨List.replicate 50001 7, 0⟩
    (by decide) hl (by rw [hlen]; omega) hl (by rw [hlen]; omega)
  refine ⟨hmain.1, hmain.2.1, hmain.2.2 ?_⟩
  intro he
  have := congrArg FileData.mtime he
  simp at this

/-! ### Lemmas about `reSearchCapture` -/

theorem matchPre_append (lit r : List Char) : matchPre lit (lit ++ r) = some r := by
  induction lit with
  | nil => rfl
  | cons p ps ih => rw [List.cons_append, matchPre, if_pos rfl, ih]

theorem matchPre_subset (lit : List Char) (r : List Char) :
    ∀ l, matchPre lit l = some r → ∀ c ∈ lit, c ∈ l := by
  induction lit with
  | nil => intro l _ c hc; simp at hc
  | cons p ps ih =>
    intro l h c hc
    cases l with
    | nil => rw [matchPre] at h; exact absurd h (by simp)
    | cons x xs =>
      rw [matchPre] at h
      by_cases hpx : p = x
      · rw [if_pos hpx] at h
        rcases List.mem_cons.1 hc with he | hm
        · subst he; rw [hpx]; simp
        · exact List.mem_cons_of_mem x (ih xs h c hm)
      · rw [if_neg hpx] at h
        exact absurd h (by simp)

theorem mismatchInside_matchPre (lit : List Char) :
    ∀ l, mismatchInside lit l = true → ∀ ext, matchPre lit (l ++ ext) = none := by
  induction lit with
  | nil => intro l h; rw [mismatchInside] at h; exact absurd h (by simp)
  | cons p ps ih =>
    intro l h ext
    cases l with
    | nil => rw [mismatchInside] at h; exact absurd h (by simp)
    | cons x xs =>
      rw [mismatchInside] at h
      rw [List.cons_append, matchPre]
      by_cases hpx : p = x
      · rw [if_pos hpx] at h ⊢
        exact ih xs h ext
      · rw [if_neg hpx]

theorem reSearchCapture_skip (lit : List Char) (excl : Char) (conc : List Char)
    (h : noEarlyMatchB lit conc = true) (rest : List Char) :
    reSearchCapture lit excl (conc ++ rest) = reSearchCapture lit excl rest := by
  induction conc with
  | nil => rfl
  | cons c cs ih =>
    rw [noEarlyMatchB, Bool.and_eq_true] at h
    have hm : matchPre lit ((c :: cs) ++ rest) = none := by
      have := mismatchInside_matchPre lit (c :: cs) h.1 rest
      rwa [List.cons_append] at this
    rw [List.cons_append] at hm
    rw [List.cons_append, reSearchCapture, hm]
    exact ih h.2

theorem takeWhile_all_ne (excl : Char) (l : List Char) (h : ∀ c ∈ l, c ≠ excl) :
    l.takeWhile (fun d => d != excl) = l := by
  induction l with
  | nil => rfl
  | cons c cs ih =>
    rw [List.takeWhile_cons]
    have hc : (c != excl) = true := by
      have := h c (by simp)
      simpa using this
    rw [hc, if_pos rfl]
    rw [ih (fun d hd => h d (by simp [hd]))]

theorem reSearchCapture_hit (lit : List Char) (excl : Char) (id : List Char)
    (hlit : lit ≠ []) (hid : id ≠ []) (hexcl : ∀ c ∈ id, c ≠ excl) :
    reSearchCapture lit excl (lit ++ id) = some id := by
  cases lit with
  | nil => exact absurd rfl hlit
  | cons p ps =>
    have hm : matchPre (p :: ps) ((p :: ps) ++ id) = some id := matchPre_append _ _
    rw [List.cons_append] at hm
    rw [List.cons_append, reSearchCapture, hm]
    dsimp only
    rw [takeWhile_all_ne excl id hexcl]
    rw [if_neg hid]

theorem reSearchCapture_none_of_missing (lit : List Char) (excl w : Char)
    (hw : w ∈ lit) :
    ∀ l, (∀ c ∈ l, c ≠ w) → reSearchCapture lit excl l = none := by
  intro l
  induction l with
  | nil => intro _; rfl
  | cons c cs ih =>
    intro hmiss
    rw [reSearchCapture]
    have hm : matchPre lit (c :: cs) = none := by
      cases hmp : matchPre lit (c :: cs) with
      | none => rfl
      | some r =>
        have hmem := matchPre_subset lit r (c :: cs) hmp w hw
        exact absurd rfl (hmiss w hmem)
    rw [hm]
    exact ih (fun d hd => hmiss d (by simp [hd]))

theorem resolve_shape (pre lit : List Char) (excl : Char) (id : List Char)
    (hno : noEarlyMatchB lit pre = true) (hlit : lit ≠ []) (hid : id ≠ [])
    (hexcl : ∀ c ∈ id, c ≠ excl) :
    reSearchCapture lit excl (pre ++ (lit ++ id)) = some id := by
  rw [reSearchCapture_skip lit excl pre hno (lit ++ id)]
  exact reSearchCapture_hit lit excl id hlit hid hexcl

theorem resolve_miss (lit : List Char) (excl w : Char) (conc id : List Char)
    (hno : noEarlyMatchB lit conc = true) (hw : w ∈ lit)
    (hmiss : ∀ c ∈ id, c ≠ w) :
    reSearchCapture lit excl (conc ++ id) = none := by
  rw [reSearchCapture_skip lit excl conc hno id]
  exact reSearchCapture_none_of_missing lit excl w hw id hmiss

/-! ### Claim C6 -/

/-- C6: for every well-formed identifier of the platform's fixed length 11,
all supported URL shapes (`watch?v=ID`, `youtu.be/ID`, `embed/ID`,
`shorts/ID`, `v/ID`) and the bare token resolve to the same canonical
identifier. -/
theorem video_id_canonical_across_url_shapes (id : List Char) (hok : idOK id)
    (hlen : id.length = 11) :
    get_video_id id = id ∧
    get_video_id ("https://www.youtube.com/watch?v=".toList ++ id) = id ∧
    get_video_id ("https://youtu.be/".toList ++ id) = id ∧
    get_video_id ("https://www.youtube.com/embed/".toList ++ id) = id ∧
    get_video_id ("https://www.youtube.com/shorts/".toList ++ id) = id ∧
    get_video_id ("https://www.youtube.com/v/".toList ++ id) = id := by
  obtain ⟨hne, hprop⟩ := hok
  have hsp : ∀ c ∈ id, isPySpace c = false := fun c hc => (hprop c hc).1
  have hslash : ∀ c ∈ id, c ≠ '/' := fun c hc => (hprop c hc).2.1
  have hnoeq : ∀ c ∈ id, c ≠ '=' := fun c hc => (hprop c hc).2.2.1
  have hnoamp : ∀ c ∈ id, c ≠ '&' := fun c hc => (hprop c hc).2.2.2.1
  have hnoq : ∀ c ∈ id, c ≠ '?' := fun c hc => (hprop c hc).2.2.2.2
  have hstripc : ∀ conc : List Char, (∀ c ∈ conc, isPySpace c = false) →
      pyStrip (conc ++ id) = conc ++ id := by
    intro conc hconc
    apply pyStrip_eq_self_of_all
    intro c hc
    rcases List.mem_append.1 hc with h | h
    · exact hconc c h
    · exact hsp c h
  have hbare : ∀ conc : List Char, conc ≠ [] →
      ¬ ((conc ++ id).length = 11 ∧ ' ' ∉ conc ++ id ∧ '/' ∉ conc ++ id ∧
        '=' ∉ conc ++ id) := by
    intro conc hcne hcon
    have h1 := hcon.1
    rw [List.length_append, hlen] at h1
    have h0 : conc.length = 0 := by omega
    exact hcne (List.length_eq_zero.1 h0)
  refine ⟨?_, ?_, ?_, ?_, ?_, ?_⟩
  · simp only [get_video_id]
    rw [pyStrip_eq_self_of_all id hsp]
    have hcond : id.length = 11 ∧ ' ' ∉ id ∧ '/' ∉ id ∧ '=' ∉ id := by
      refine ⟨hlen, ?_, ?_, ?_⟩
      · intro hm; exact absurd (hsp ' ' hm) (by decide)
      · intro hm; exact hslash '/' hm rfl
      · intro hm; exact hnoeq '=' hm rfl
    rw [if_pos hcond]
  · simp only [get_video_id]
    rw [hstripc "https://www.youtube.com/watch?v=".toList (by decide)]
    rw [if_neg (hbare _ (by decide))]
    have hs1 : reSearchCapture pat1 '&' ("https://www.youtube.com/watch?v=".toList ++ id) =
        some id := by
      rw [show "https://www.youtube.com/watch?v=".toList =
        "https://www.".toList ++ pat1 from by decide, List.append_assoc]
      exact resolve_shape "https://www.".toList pat1 '&' id (by decide) (by decide) hne hnoamp
    rw [hs1]
  · simp only [get_video_id]
    rw [hstripc "https://youtu.be/".toList (by decide)]
    rw [if_neg (hbare _ (by decide))]
    rw [resolve_miss pat1 '&' '/' "https://youtu.be/".toList id (by decide) (by decide) hslash]
    have hs2 : reSearchCapture pat2 '?' ("https://youtu.be/".toList ++ id) = some id := by
      rw [show "https://youtu.be/".toList = "https://".toList ++ pat2 from by decide,
        List.append_assoc]
      exact resolve_shape "https://".toList pat2 '?' id (by decide) (by decide) hne hnoq
    rw [hs2]
  · simp only [get_video_id]
    rw [hstripc "https://www.youtube.com/embed/".toList (by decide)]
    rw [if_neg (hbare _ (by decide))]
    rw [resolve_miss pat1 '&' '/' "https://www.youtube.com/embed/".toList id (by decide)
      (by decide) hslash]
    rw [resolve_miss pat2 '?' '/' "https://www.youtube.com/embed/".toList id (by decide)
      (by decide) hslash]
    have hs3 : reSearchCapture pat3 '?' ("https://www.youtube.com/embed/".toList ++ id) =
        some id := by
      rw [show "https://www.youtube.com/embed/".toList =
        "https://www.".toList ++ pat3 from by decide, List.append_assoc]
      exact resolve_shape "https://www.".toList pat3 '?' id (by decide) (by decide) hne hnoq
    rw [hs3]
  · simp only [get_video_id]
    rw [hstripc "https://www.youtube.com/shorts/".toList (by decide)]
    rw [if_neg (hbare _ (by decide))]
    rw [resolve_miss pat1 '&' '/' "https://www.youtube.com/shorts/".toList id (by decide)
      (by decide) hslash]
    rw [resolve_miss pat2 '?' '/' "https://www.youtube.com/shorts/".toList id (by decide)
      (by decide) hslash]
    rw [resolve_miss pat3 '?' '/' "https://www.youtube.com/shorts/".toList id (by decide)
      (by decide) hslash]
    have hs4 : reSearchCapture pat4 '?' ("https://www.youtube.com/shorts/".toList ++ id) =
        some id := by
      rw [show "https://www.youtube.com/shorts/".toList =
        "https://www.".toList ++ pat4 from by decide, List.append_assoc]
      exact resolve_shape "https://www.".toList pat4 '?' id (by decide) (by decide) hne hnoq
    rw [hs4]
  · simp only [get_video_id]
    rw [hstripc "https://www.youtube.com/v/".toList (by decide)]
    rw [if_neg (hbare _ (by decide))]
    rw [resolve_miss pat1 '&' '/' "https://www.youtube.com/v/".toList id (by decide)
      (by decide) hslash]
    rw [resolve_miss pat2 '?' '/' "https://www.youtube.com/v/".toList id (by decide)
      (by decide) hslash]
    rw [resolve_miss pat3 '?' '/' "https://www.youtube.com/v/".toList id (by decide)
      (by decide) hslash]
    rw [resolve_miss pat4 '?' '/' "https://www.youtube.com/v/".toList id (by decide)
      (by decide) hslash]
    have hs5 : reSearchCapture pat5 '?' ("https://www.youtube.com/v/".toList ++ id) =
        some id := by
      rw [show "https://www.youtube.com/v/".toList =
        "https://www.".toList ++ pat5 from by decide, List.append_assoc]
      exact resolve_shape "https://www.".toList pat5 '?' id (by decide) (by decide) hne hnoq
    rw [hs5]

/-- C6 witness: `https://www.youtube.com/watch?v=abc123XYZ_q`,
`https://youtu.be/abc123XYZ_q` and the bare `abc123XYZ_q` all resolve to
`abc123XYZ_q`. -/
theorem video_id_canonical_across_url_shapes_witness :
    idOK "abc123XYZ_q".toList ∧ "abc123XYZ_q".toList.length = 11 ∧
    get_video_id "abc123XYZ_q".toList = "abc123XYZ_q".toList ∧
    get_video_id "https://www.youtube.com/watch?v=abc123XYZ_q".toList =
      "abc123XYZ_q".toList ∧
    get_video_id "https://youtu.be/abc123XYZ_q".toList = "abc123XYZ_q".toList := by
  have h := video_id_canonical_across_url_shapes "abc123XYZ_q".toList (by decide) (by decide)
  refine ⟨by decide, by decide, h.1, ?_, ?_⟩
  · have he : "https://www.youtube.com/watch?v=abc123XYZ_q".toList =
        "https://www.youtube.com/watch?v=".toList ++ "abc123XYZ_q".toList := by decide
    rw [he]
    exact h.2.1
  · have he : "https://youtu.be/abc123XYZ_q".toList =
        "https://youtu.be/".toList ++ "abc123XYZ_q".toList := by decide
    rw [he]
    exact h.2.2.1

/-! ### Claim C7 -/

theorem afterLastVEq_eq_none_aux :
    ∀ n l, l.length ≤ n → containsSub veqL l = false → afterLastVEq l = none := by
  intro n
  induction n with
  | zero =>
    intro l hl _
    rcases l with _ | ⟨c, cs⟩
    · rfl
    · simp at hl
  | succ k ih =>
    intro l hl h
    rcases l with _ | ⟨c, cs⟩
    · rfl
    rcases cs with _ | ⟨d, rest⟩
    · rfl
    rw [containsSub, Bool.or_eq_false_iff] at h
    rw [afterLastVEq]
    by_cases hvd : c = 'v' ∧ d = '='
    · exfalso
      obtain ⟨hc, hd⟩ := hvd
      subst hc
      subst hd
      have hm : matchPre veqL ('v' :: '=' :: rest) = some rest := by
        rw [show veqL = ['v', '='] from rfl]
        rw [matchPre, if_pos rfl, matchPre, if_pos rfl]
        rfl
      rw [hm] at h
      exact absurd h.1 (by simp)
    · rw [if_neg hvd]
      exact ih (d :: rest) (by simp at hl ⊢; omega) h.2

theorem afterLastVEq_eq_none (l : List Char) (h : containsSub veqL l = false) :
    afterLastVEq l = none :=
  afterLastVEq_eq_none_aux l.length l (le_refl _) h

theorem afterLastVEq_append_aux :
    ∀ n (a b : List Char), a.length ≤ n → containsSub veqL b = false →
      afterLastVEq (a ++ 'v' :: '=' :: b) = some b := by
  intro n
  induction n with
  | zero =>
    intro a b ha hb
    have hanil : a = [] := by
      rcases a with _ | ⟨c, cs⟩
      · rfl
      · simp at ha
    subst hanil
    rw [List.nil_append, afterLastVEq, if_pos ⟨rfl, rfl⟩]
    rw [afterLastVEq_eq_none b hb]
    rfl
  | succ k ih =>
    intro a b ha hb
    rcases a with _ | ⟨c, cs⟩
    · rw [List.nil_append, afterLastVEq, if_pos ⟨rfl, rfl⟩]
      rw [afterLastVEq_eq_none b hb]
      rfl
    rcases cs with _ | ⟨d, cs2⟩
    · rw [List.cons_append, List.nil_append]
      rw [afterLastVEq]
      rw [if_neg (by intro hcon; exact absurd hcon.2 (by decide))]
      have hthis := ih [] b (by simp) hb
      rw [List.nil_append] at hthis
      exact hthis
    · rw [List.cons_append, List.cons_append, afterLastVEq]
      by_cases hvd : c = 'v' ∧ d = '='
      · rw [if_pos hvd]
        rw [ih cs2 b (by simp at ha ⊢; omega) hb]
        rfl
      · rw [if_neg hvd]
        have hthis := ih (d :: cs2) b (by simp at ha ⊢; omega) hb
        rw [List.cons_append] at hthis
        exact hthis

theorem afterLastVEq_append (a b : List Char) (hb : containsSub veqL b = false) :
    afterLastVEq (a ++ 'v' :: '=' :: b) = some b :=
  afterLastVEq_append_aux a.length a b (le_refl _) hb

theorem containsSub_veq_append (a b : List Char) :
    containsSub veqL (a ++ 'v' :: '=' :: b) = true := by
  induction a with
  | nil =>
    rw [List.nil_append, containsSub]
    have hm : matchPre veqL ('v' :: '=' :: b) = some b := by
      rw [show veqL = ['v', '='] from rfl]
      rw [matchPre, if_pos rfl, matchPre, if_pos rfl]
      rfl
    rw [hm]
    rfl
  | cons c cs ih =>
    rw [List.cons_append, containsSub, ih, Bool.or_true]

/-- C7 counterexample: `https://example.com/foo` matches no recognized URL
pattern and contains no `v=`; `get_video_id` returns the whole input string
unchanged, not the trailing path segment `foo` the claim predicts. -/
theorem fallback_returns_whole_input_example :
    get_video_id "https://example.com/foo".toList = "https://example.com/foo".toList ∧
    get_video_id "https://example.com/foo".toList ≠ "foo".toList := by
  decide

/-- C7 amended: when no recognized URL pattern matches a (stripped,
non-bare-token) input, the fallback is: if `v=` does not occur in the input,
`get_video_id` returns the whole input string unchanged (not the trailing
path segment); if `v=` occurs, it returns the text after the last `v=`
truncated at the first `&`. -/
theorem fallback_behavior_veq_or_identity (url : List Char)
    (hstrip : pyStrip url = url)
    (hbare : ¬ (url.length = 11 ∧ ' ' ∉ url ∧ '/' ∉ url ∧ '=' ∉ url))
    (h1 : reSearchCapture pat1 '&' url = none)
    (h2 : reSearchCapture pat2 '?' url = none)
    (h3 : reSearchCapture pat3 '?' url = none)
    (h4 : reSearchCapture pat4 '?' url = none)
    (h5 : reSearchCapture pat5 '?' url = none) :
    (containsSub veqL url = false → get_video_id url = url) ∧
    (∀ a b, url = a ++ 'v' :: '=' :: b → containsSub veqL b = false →
      get_video_id url = b.takeWhile (fun c => c != '&')) := by
  constructor
  · intro hv
    simp only [get_video_id]
    rw [hstrip, if_neg hbare, h1, h2, h3, h4, h5]
    rw [hv]
    rw [if_neg (by simp)]
  · intro a b hab hb
    simp only [get_video_id]
    rw [hstrip, if_neg hbare, h1, h2, h3, h4, h5]
    have hv : containsSub veqL url = true := by
      rw [hab]
      exact containsSub_veq_append a b
    rw [hv, if_pos rfl]
    rw [hab, afterLastVEq_append a b hb]
    rfl

/-- C7 amended witness: `https://host/page?v=abc&x=1` matches no pattern;
the fallback returns the text after the last `v=` up to the first `&`,
namely `abc`. -/
theorem fallback_behavior_veq_or_identity_witness :
    pyStrip "https://host/page?v=abc&x=1".toList = "https://host/page?v=abc&x=1".toList ∧
    get_video_id "https://host/page?v=abc&x=1".toList = "abc".toList := by
  have h := fallback_behavior_veq_or_identity "https://host/page?v=abc&x=1".toList
    (by decide) (by decide) (by decide) (by decide) (by decide) (by decide) (by decide)
  refine ⟨by decide, ?_⟩
  have h2 := h.2 "https://host/page?".toList "abc&x=1".toList (by decide) (by decide)
  rw [h2]
  decide
